import Mathlib

/-
Verification of the Tareas-CLI task manager core (src/tareas.py, src/lib/storage.py).

Shallow embedding notes:
- JSON scalar values are modelled by `JVal`; a task record (a Python dict) is an
  association list `Record` preserving insertion order, as Python dicts do.
- The primary data file is modelled by `FileContent`: it is missing, holds invalid
  JSON, fails to read, holds valid JSON that is not an array, or holds an array of
  records.  `save`/`load` act on this abstraction; serialization round-trips are the
  identity on `Record` values, matching `json.dump`/`json.load` on representable data.
- Wall-clock time (`now_iso`, `timestamp`) is passed in as a string parameter.
- Points at which the Python code can raise (open/write/makedirs) are driven by
  boolean success flags; operations return `Except PyExc _`, where `.error` models an
  exception propagating out of the function and `.ok` a normal return.  `try/except`
  blocks in the source turn `.error` from the attempted step into `.ok` plus a
  printed diagnostic, which we collect as a list of messages.
- Python `sorted` over distinct integer keys is modelled by `List.insertionSort`.
- Python `str.strip` is `pyStrip`; `int(...)` applied to a JSON value is `pyInt`
  (string parsing elides exotic forms like underscore separators, which do not occur
  in this program's data).
-/

namespace Tareas

/-- Scalar JSON values that can appear as fields of a task record. -/
inductive JVal where
  | null
  | bool (b : Bool)
  | int (n : Int)
  | str (s : String)
deriving DecidableEq, Repr

/-- A task record: a Python dict from string keys to JSON values, insertion ordered. -/
abbrev Record := List (String × JVal)

/-- Python `d.get(k)` / `d[k]` on a record: first binding of the key, if any. -/
def getField : Record → String → Option JVal
  | [], _ => none
  | (k, v) :: rest, key => if k = key then some v else getField rest key

/-- Python `d[k] = v` on a record: replace in place if the key exists, else append. -/
def setField : Record → String → JVal → Record
  | [], key, v => [(key, v)]
  | (k, w) :: rest, key, v =>
    if k = key then (k, v) :: rest else (k, w) :: setField rest key v

/-- Python `str.strip()` on a list of characters. -/
def pyStripChars (cs : List Char) : List Char :=
  ((cs.dropWhile Char.isWhitespace).reverse.dropWhile Char.isWhitespace).reverse

/-- Python `str.strip()`. -/
def pyStrip (s : String) : String := String.mk (pyStripChars s.data)

/-- Decimal digits to a natural number; `none` when empty or not all digits. -/
def digitsToNat? : List Char → Option Nat
  | [] => none
  | cs =>
    if cs.all Char.isDigit then
      some (cs.foldl (fun acc c => acc * 10 + (c.toNat - 48)) 0)
    else none

/-- Python `int(s)` on a string: optional surrounding whitespace, optional sign,
decimal digits; `none` models a `ValueError`. -/
def pyStrToInt (s : String) : Option Int :=
  match pyStripChars s.data with
  | '-' :: rest => (digitsToNat? rest).map (fun n => -(n : Int))
  | '+' :: rest => (digitsToNat? rest).map (fun n => (n : Int))
  | cs => (digitsToNat? cs).map (fun n => (n : Int))

/-- Python `int(v)` on a JSON value; `none` models a raised `TypeError`/`ValueError`. -/
def pyInt : JVal → Option Int
  | .int n => some n
  | .bool b => some (if b then 1 else 0)
  | .str s => pyStrToInt s
  | .null => none

/-- Python `str(v)`, as the `csv` module renders cell values. -/
def pyStr : JVal → String
  | .null => "None"
  | .bool b => if b then "True" else "False"
  | .int n => toString n
  | .str s => s

/-- The `int(t["id"])` coercion in `load_state`; `none` when the lookup or the
coercion raises (record dropped). -/
def coerceId (t : Record) : Option Int := (getField t "id").bind pyInt

/-- The in-memory store `tasks`: a Python dict from integer id to record. -/
abbrev TaskMap := List (Int × Record)

/-- Python `tasks.get(k)` / `k in tasks`. -/
def lookupTask : TaskMap → Int → Option Record
  | [], _ => none
  | (k, r) :: rest, i => if k = i then some r else lookupTask rest i

/-- Python `tasks[k] = r`: replace in place if present, else append. -/
def setTask : TaskMap → Int → Record → TaskMap
  | [], i, r => [(i, r)]
  | (k, v) :: rest, i, r =>
    if k = i then (k, r) :: rest else (k, v) :: setTask rest i r

/-- Python `del tasks[k]`. -/
def eraseTask : TaskMap → Int → TaskMap
  | [], _ => []
  | (k, v) :: rest, i => if k = i then rest else (k, v) :: eraseTask rest i

/-- Python `tasks.keys()`, in insertion order. -/
def keysOf (m : TaskMap) : List Int := m.map Prod.fst

/-- Python `sorted` on integer keys. -/
def pySorted (l : List Int) : List Int := List.insertionSort (fun a b => a ≤ b) l

/-- Module-level mutable state of tareas.py: the task dict and the next-id counter. -/
structure Store where
  tasks : TaskMap
  next_id : Int
deriving DecidableEq, Repr

/-- The function `recalc_next_id`: `max(tasks.keys()) + 1` when nonempty, else 1. -/
def recalc_next_id (m : TaskMap) : Int :=
  match (keysOf m).max? with
  | some mx => mx + 1
  | none => 1

/-- Observable state of a JSON file from the loader's point of view. -/
inductive FileContent where
  | missing
  | invalid
  | readError
  | nonArray
  | arr (records : List Record)
deriving DecidableEq, Repr

/-- An exception escaping a function (the only kind this code can meet is an OS or
value error from file I/O). -/
inductive PyExc where
  | osError
deriving DecidableEq, Repr

def DATA_FILE : String := "tasks.json"

def EXPORT_DIR : String := "exports"

/-- Diagnostic printed by `load_tasks` when the JSON content is not a list. -/
def msgNotList (path : String) : String :=
  "El contenido de " ++ path ++ " no es una lista. Devolviendo lista vacía."

/-- Diagnostic printed by `load_tasks` on a JSON decoding error. -/
def msgCorrupt (path : String) : String :=
  "El archivo " ++ path ++ " está corrupto o no es un JSON válido. Devolviendo lista vacía."

/-- Diagnostic printed by `load_tasks` on any other read error (exception text elided). -/
def msgReadError (path : String) : String :=
  "Ocurrió un error al leer " ++ path ++ ". Devolviendo lista vacía."

/-- Diagnostic printed by `save_tasks` on any write error (exception text elided). -/
def msgWriteError (path : String) : String :=
  "Ocurrió un error al escribir en " ++ path ++ "."

/-- The function `load_tasks` of src/lib/storage.py: parsed records plus printed
diagnostics; every branch returns normally. -/
def load_tasks (path : String) : FileContent → Except PyExc (List Record × List String)
  | .missing => .ok ([], [])
  | .arr rs => .ok (rs, [])
  | .nonArray => .ok ([], [msgNotList path])
  | .invalid => .ok ([], [msgCorrupt path])
  | .readError => .ok ([], [msgReadError path])

/-- An `open(..., "w")` plus write whose success is given by the environment;
`.error` models the exception it raises on failure. -/
def attemptWrite (ok : Bool) : Except PyExc Unit :=
  if ok then .ok () else .error .osError

/-- The function `save_tasks` of src/lib/storage.py: on success the file now holds
the records; on failure the old content stays and a diagnostic is printed; the
`try/except` means both cases return normally. -/
def save_tasks (writeOk : Bool) (path : String) (old : FileContent)
    (records : List Record) : Except PyExc (FileContent × List String) :=
  match attemptWrite writeOk with
  | .ok _ => .ok (.arr records, [])
  | .error _ => .ok (old, [msgWriteError path])

/-- One iteration of the `for t in raw` loop of `load_state`: coerce the record's
id and index the record by it; a record whose coercion raises is silently dropped. -/
def loadStep (acc : TaskMap) (t : Record) : TaskMap :=
  match coerceId t with
  | some tid => setTask acc tid t
  | none => acc

/-- The whole `for t in raw` loop of `load_state`, starting from the empty dict. -/
def buildTasks (raw : List Record) : TaskMap :=
  raw.foldl loadStep []

/-- The function `load_state`: load the data file, rebuild the dict, recalculate
`next_id`. -/
def load_state (fc : FileContent) : Except PyExc (Store × List String) :=
  match load_tasks DATA_FILE fc with
  | .error e => .error e
  | .ok (raw, msgs) =>
    let m := buildTasks raw
    .ok (⟨m, recalc_next_id m⟩, msgs)

/-- The list `[tasks[k] for k in sorted(tasks.keys())]` used by `persist` and the
exporters. -/
def sortedRecords (m : TaskMap) : List Record :=
  (pySorted (keysOf m)).map (fun k => (lookupTask m k).getD [])

/-- The function `persist`: write the records in ascending id order to the data file. -/
def persist (writeOk : Bool) (file : FileContent) (m : TaskMap) :
    Except PyExc (FileContent × List String) :=
  save_tasks writeOk DATA_FILE file (sortedRecords m)

/-- The task dict literal built by `add_task` (`now` stands for `now_iso()`). -/
def mkTask (id : Int) (now title description : String) (done : Bool) : Record :=
  [("id", .int id), ("date", .str now), ("title", .str (pyStrip title)),
   ("description", .str (pyStrip description)), ("done", .bool done),
   ("updated_at", .str now)]

/-- The function `add_task`: build the record at `next_id`, store it, bump the
counter, persist, return the record. -/
def add_task (st : Store) (file : FileContent) (writeOk : Bool) (now : String)
    (title description : String) (done : Bool) :
    Except PyExc (Store × FileContent × List String × Record) :=
  let task := mkTask st.next_id now title description done
  let m := setTask st.tasks st.next_id task
  match persist writeOk file m with
  | .error e => .error e
  | .ok (f, msgs) => .ok (⟨m, st.next_id + 1⟩, f, msgs, task)

/-- The four field assignments `edit_task` performs on the record it found. -/
def editedRecord (t : Record) (now title description : String) (done : Bool) : Record :=
  setField
    (setField
      (setField (setField t "title" (.str (pyStrip title)))
        "description" (.str (pyStrip description)))
      "done" (.bool done))
    "updated_at" (.str now)

/-- The function `edit_task`.  Python's `if not t:` is a falsiness test, so both a
missing id and an id bound to an empty record answer `False` without writing. -/
def edit_task (st : Store) (file : FileContent) (writeOk : Bool) (now : String)
    (id : Int) (title description : String) (done : Bool) :
    Except PyExc (Bool × Store × FileContent × List String) :=
  match lookupTask st.tasks id with
  | none => .ok (false, st, file, [])
  | some t =>
    if t.isEmpty then .ok (false, st, file, [])
    else
      let m := setTask st.tasks id (editedRecord t now title description done)
      match persist writeOk file m with
      | .error e => .error e
      | .ok (f, msgs) => .ok (true, ⟨m, st.next_id⟩, f, msgs)

/-- The function `delete_task`: membership test, delete, persist. -/
def delete_task (st : Store) (file : FileContent) (writeOk : Bool) (id : Int) :
    Except PyExc (Bool × Store × FileContent × List String) :=
  if (lookupTask st.tasks id).isSome then
    let m := eraseTask st.tasks id
    match persist writeOk file m with
    | .error e => .error e
    | .ok (f, msgs) => .ok (true, ⟨m, st.next_id⟩, f, msgs)
  else .ok (false, st, file, [])

/-- Success flags for the system calls the exporters make. -/
structure SysEnv where
  mkdirOk : Bool
  openCsvOk : Bool
  writeOk : Bool
deriving DecidableEq, Repr

/-- The function `ensure_export_dir`: a bare `os.makedirs` with no exception
handler, so failure propagates. -/
def ensure_export_dir (env : SysEnv) : Except PyExc Unit :=
  if env.mkdirOk then .ok () else .error .osError

/-- The fixed `fieldnames` list of `export_csv`. -/
def fieldnames : List String := ["id", "date", "title", "description", "done", "updated_at"]

/-- One CSV cell: `tasks[tid].get(k, "")` rendered by the csv writer via `str`. -/
def csvCell (t : Record) (k : String) : String :=
  match getField t k with
  | some v => pyStr v
  | none => ""

/-- The data rows `export_csv` writes, one per task in ascending id order. -/
def csvRows (m : TaskMap) : List (List String) :=
  (pySorted (keysOf m)).map
    (fun tid => fieldnames.map (csvCell ((lookupTask m tid).getD [])))

/-- Full CSV content: header row then data rows. -/
def csvContent (m : TaskMap) : List (List String) := fieldnames :: csvRows m

/-- The function `export_csv`: make the directory and open the file, both bare
(failures propagate); on success return the path and the rows written. -/
def export_csv (env : SysEnv) (m : TaskMap) (stamp : String) :
    Except PyExc (String × List (List String)) :=
  match ensure_export_dir env with
  | .error e => .error e
  | .ok _ =>
    match attemptWrite env.openCsvOk with
    | .error e => .error e
    | .ok _ => .ok (EXPORT_DIR ++ "/tasks_" ++ stamp ++ ".csv", csvContent m)

/-- The function `export_json`: make the directory (bare, failure propagates), then
write through `save_tasks`, which absorbs write failures. -/
def export_json (env : SysEnv) (m : TaskMap) (old : FileContent) (stamp : String) :
    Except PyExc (String × FileContent × List String) :=
  match ensure_export_dir env with
  | .error e => .error e
  | .ok _ =>
    let path := EXPORT_DIR ++ "/tasks_" ++ stamp ++ ".json"
    match save_tasks env.writeOk path old (sortedRecords m) with
    | .error e => .error e
    | .ok (f, msgs) => .ok (path, f, msgs)

/-! Helper lemmas about the association-list operations. -/

theorem lookupTask_setTask (m : TaskMap) (k : Int) (r : Record) (j : Int) :
    lookupTask (setTask m k r) j = if k = j then some r else lookupTask m j := by
  induction m with
  | nil =>
    by_cases h : k = j <;> simp [setTask, lookupTask, h]
  | cons p rest ih =>
    obtain ⟨k', v⟩ := p
    by_cases h1 : k' = k
    · subst h1
      by_cases h2 : k' = j <;> simp [setTask, lookupTask, h2]
    · by_cases h2 : k' = j
      · subst h2
        simp [setTask, lookupTask, h1, Ne.symm h1]
      · simp [setTask, lookupTask, h1, h2, ih]

theorem lookupTask_eq_none_iff (m : TaskMap) (j : Int) :
    lookupTask m j = none ↔ j ∉ keysOf m := by
  induction m with
  | nil => simp [lookupTask, keysOf]
  | cons p rest ih =>
    obtain ⟨k, v⟩ := p
    by_cases h : k = j
    · subst h
      simp [lookupTask, keysOf]
    · simp [lookupTask, keysOf, h, ih, Ne.symm h]

theorem mem_of_lookupTask_eq_some {m : TaskMap} {j : Int} {r : Record}
    (h : lookupTask m j = some r) : (j, r) ∈ m := by
  induction m with
  | nil => simp [lookupTask] at h
  | cons p rest ih =>
    obtain ⟨k, v⟩ := p
    by_cases hk : k = j
    · subst hk
      simp [lookupTask] at h
      subst h
      exact List.mem_cons_self _ _
    · simp [lookupTask, hk] at h
      exact List.mem_cons_of_mem _ (ih h)

theorem lookupTask_isSome_of_mem_keys {m : TaskMap} {j : Int}
    (h : j ∈ keysOf m) : ∃ r, lookupTask m j = some r := by
  cases hl : lookupTask m j with
  | none => exact absurd ((lookupTask_eq_none_iff m j).mp hl) (not_not_intro h)
  | some r => exact ⟨r, rfl⟩

theorem mem_keysOf_setTask (m : TaskMap) (k : Int) (r : Record) :
    k ∈ keysOf (setTask m k r) := by
  have h : lookupTask (setTask m k r) k = some r := by
    simp [lookupTask_setTask]
  by_contra hk
  rw [← lookupTask_eq_none_iff] at hk
  rw [h] at hk
  exact Option.noConfusion hk

theorem getField_setField (t : Record) (k : String) (v : JVal) (j : String) :
    getField (setField t k v) j = if k = j then some v else getField t j := by
  induction t with
  | nil =>
    by_cases h : k = j <;> simp [setField, getField, h]
  | cons p rest ih =>
    obtain ⟨k', w⟩ := p
    by_cases h1 : k' = k
    · subst h1
      by_cases h2 : k' = j <;> simp [setField, getField, h2]
    · by_cases h2 : k' = j
      · subst h2
        simp [setField, getField, h1, Ne.symm h1]
      · simp [setField, getField, h1, h2, ih]

/-- Looking a key up in a list of pairs built by tagging each element of `ks`. -/
theorem lookupTask_map_pair (ks : List Int) (g : Int → Record) (j : Int) :
    lookupTask (ks.map (fun k => (k, g k))) j =
      if j ∈ ks then some (g j) else none := by
  induction ks with
  | nil => simp [lookupTask]
  | cons k rest ih =>
    by_cases h : k = j
    · subst h
      simp [lookupTask]
    · simp [lookupTask, h, ih, Ne.symm h]

theorem keysOf_map_pair (ks : List Int) (g : Int → Record) :
    keysOf (ks.map (fun k => (k, g k))) = ks := by
  induction ks with
  | nil => rfl
  | cons k rest ih => simpa [keysOf] using ih

/-! Helper lemmas about `pySorted` and `recalc_next_id`. -/

theorem pySorted_perm (l : List Int) : (pySorted l).Perm l :=
  List.perm_insertionSort _ l

theorem pySorted_sorted (l : List Int) : (pySorted l).Sorted (· ≤ ·) :=
  List.sorted_insertionSort _ l

theorem mem_pySorted (l : List Int) (k : Int) : k ∈ pySorted l ↔ k ∈ l :=
  (pySorted_perm l).mem_iff

theorem length_pySorted (l : List Int) : (pySorted l).length = l.length :=
  (pySorted_perm l).length_eq

theorem recalc_next_id_empty : recalc_next_id [] = 1 := rfl

theorem recalc_next_id_spec (m : TaskMap) :
    (m = [] → recalc_next_id m = 1) ∧
    (∀ k ∈ keysOf m, k < recalc_next_id m) ∧
    (m ≠ [] → ∃ k ∈ keysOf m, recalc_next_id m = k + 1) := by
  cases hm : (keysOf m).max? with
  | none =>
    have hk : keysOf m = [] := List.max?_eq_none_iff.mp hm
    have hnil : m = [] := by
      cases m with
      | nil => rfl
      | cons p rest => simp [keysOf] at hk
    subst hnil
    refine ⟨fun _ => rfl, ?_, ?_⟩
    · intro k hk2
      simp [keysOf] at hk2
    · intro h
      exact absurd rfl h
  | some mx =>
    haveI : Std.Antisymm (fun x1 x2 : Int => x1 ≤ x2) :=
      ⟨fun h1 h2 => le_antisymm h1 h2⟩
    have hiff := @List.max?_eq_some_iff Int mx _ _ _
      (fun a => le_refl a) (fun a b => max_choice a b)
      (fun a b c => max_le_iff) (keysOf m)
    have hmx := hiff.mp hm
    refine ⟨?_, ?_, ?_⟩
    · intro h
      subst h
      simp [keysOf] at hm
    · intro k hk2
      have hle : k ≤ mx := hmx.2 k hk2
      have : recalc_next_id m = mx + 1 := by simp [recalc_next_id, hm]
      omega
    · intro _
      refine ⟨mx, hmx.1, ?_⟩
      simp [recalc_next_id, hm]

/-! Helper lemmas about strip and the write path. -/

theorem pyStrip_eq_empty_of_whitespace (s : String)
    (h : ∀ c ∈ s.data, c.isWhitespace = true) : pyStrip s = "" := by
  have h1 : s.data.dropWhile Char.isWhitespace = [] :=
    List.dropWhile_eq_nil_iff.mpr h
  simp [pyStrip, pyStripChars, h1]

theorem save_tasks_isOk (writeOk : Bool) (path : String) (old : FileContent)
    (records : List Record) :
    ∃ r, save_tasks writeOk path old records = .ok r := by
  cases writeOk <;> simp [save_tasks, attemptWrite]

theorem persist_isOk (writeOk : Bool) (file : FileContent) (m : TaskMap) :
    ∃ r, persist writeOk file m = .ok r :=
  save_tasks_isOk writeOk DATA_FILE file (sortedRecords m)

theorem persist_true (file : FileContent) (m : TaskMap) :
    persist true file m = .ok (.arr (sortedRecords m), []) := rfl

/-! Helper lemmas about the load loop. -/

theorem keysOf_cons (k : Int) (r : Record) (m : TaskMap) :
    keysOf ((k, r) :: m) = k :: keysOf m := rfl

/-- Running the load loop over the values of a pair list whose records coerce back
to their own keys rebuilds exactly those bindings (later entries shadowing the
accumulator). -/
theorem lookupTask_foldl_loadStep (ps : TaskMap) :
    ∀ acc : TaskMap, (keysOf ps).Nodup →
      (∀ p ∈ ps, coerceId p.2 = some p.1) →
      ∀ j, lookupTask (List.foldl loadStep acc (ps.map Prod.snd)) j =
        if j ∈ keysOf ps then lookupTask ps j else lookupTask acc j := by
  induction ps with
  | nil =>
    intro acc _ _ j
    simp [keysOf]
  | cons p rest ih =>
    obtain ⟨k, r⟩ := p
    intro acc hnd hco j
    have hk : coerceId r = some k := hco (k, r) (List.mem_cons_self _ _)
    rw [keysOf_cons, List.nodup_cons] at hnd
    have hco2 : ∀ p ∈ rest, coerceId p.2 = some p.1 :=
      fun p hp => hco p (List.mem_cons_of_mem _ hp)
    have step1 : List.foldl loadStep acc (((k, r) :: rest).map Prod.snd) =
        List.foldl loadStep (setTask acc k r) (rest.map Prod.snd) := by
      simp [loadStep, hk]
    rw [step1, ih (setTask acc k r) hnd.2 hco2 j, keysOf_cons]
    by_cases hjr : j ∈ keysOf rest
    · have hjk : j ≠ k := fun h => hnd.1 (h ▸ hjr)
      simp [hjr, hjk, lookupTask, Ne.symm hjk]
    · by_cases hjk : j = k
      · subst hjk
        simp [hjr, lookupTask, lookupTask_setTask]
      · simp [hjr, hjk, lookupTask, lookupTask_setTask, Ne.symm hjk]

/-- Records in the store after the load loop come verbatim from the raw list (or
from the accumulator). -/
theorem lookupTask_foldl_loadStep_mem :
    ∀ (raw : List Record) (acc : TaskMap) (k : Int) (r : Record),
      lookupTask (List.foldl loadStep acc raw) k = some r →
        r ∈ raw ∨ lookupTask acc k = some r := by
  intro raw
  induction raw with
  | nil =>
    intro acc k r h
    exact Or.inr h
  | cons t rest ih =>
    intro acc k r h
    simp only [List.foldl_cons] at h
    rcases ih _ k r h with h1 | h2
    · exact Or.inl (List.mem_cons_of_mem _ h1)
    · unfold loadStep at h2
      cases hc : coerceId t with
      | none =>
        rw [hc] at h2
        exact Or.inr h2
      | some tid =>
        rw [hc, lookupTask_setTask] at h2
        by_cases htid : tid = k
        · rw [if_pos htid] at h2
          have : r = t := (Option.some.injEq _ _).mp h2.symm
          exact Or.inl (this ▸ List.mem_cons_self _ _)
        · rw [if_neg htid] at h2
          exact Or.inr h2

/-- The bindings `persist` writes, keyed again by their ids. -/
def sortedPairs (m : TaskMap) : TaskMap :=
  (pySorted (keysOf m)).map (fun k => (k, (lookupTask m k).getD []))

theorem sortedRecords_eq_map_snd (m : TaskMap) :
    sortedRecords m = (sortedPairs m).map Prod.snd := by
  simp only [sortedRecords, sortedPairs, List.map_map]
  rfl

/-- Boolean observation of whether a call returned normally (`.ok`) or let an
exception escape (`.error`). -/
def exceptOk {α : Type} : Except PyExc α → Bool
  | .ok _ => true
  | .error _ => false

/-! Claim theorems. -/

/-- C2: for every path, `load_tasks` returns the parsed JSON array at that path,
and returns an empty list without raising whenever the file is missing, the
content is not valid JSON, or the parsed JSON is not an array. -/
theorem load_tasks_returns_array_or_empty (path : String) (fc : FileContent) :
    exceptOk (load_tasks path fc) = true ∧
    (∀ rs, fc = .arr rs → load_tasks path fc = .ok (rs, [])) ∧
    ((fc = .missing ∨ fc = .invalid ∨ fc = .nonArray) →
      ∀ r, load_tasks path fc = .ok r → r.1 = []) := by
  refine ⟨?_, ?_, ?_⟩
  · cases fc <;> rfl
  · intro rs h
    subst h
    rfl
  · rintro (rfl | rfl | rfl) <;> (intro r hr; cases hr; rfl)

theorem load_tasks_returns_array_or_empty_witness :
    load_tasks "tasks.json" (.arr [[("id", JVal.int 1)]]) =
      .ok ([[("id", JVal.int 1)]], []) :=
  (load_tasks_returns_array_or_empty "tasks.json"
    (.arr [[("id", JVal.int 1)]])).2.1 [[("id", JVal.int 1)]] rfl

/-- C7 counterexample: the missing-file condition prints no diagnostic message at
all, so it is not distinguishable by a diagnostic; `load_tasks` just returns an
empty list silently. -/
theorem missing_file_silent_cex :
    load_tasks DATA_FILE .missing = .ok ([], []) := rfl

/-- C7 amended: the invalid-JSON and non-array conditions each produce a
distinguishable diagnostic message while returning normally; the missing-file
condition also returns normally but produces no diagnostic at all. -/
theorem degraded_load_diagnostics (path : String) :
    load_tasks path .invalid = .ok ([], [msgCorrupt path]) ∧
    load_tasks path .nonArray = .ok ([], [msgNotList path]) ∧
    msgCorrupt path ≠ msgNotList path ∧
    load_tasks path .missing = .ok ([], []) := by
  refine ⟨rfl, rfl, ?_, rfl⟩
  intro h
  have hlen := congrArg String.length h
  simp only [msgCorrupt, msgNotList, String.length_append] at hlen
  have e1 : ("El archivo " : String).length = 11 := by decide
  have e2 : (" está corrupto o no es un JSON válido. Devolviendo lista vacía." :
      String).length = 63 := by decide
  have e3 : ("El contenido de " : String).length = 16 := by decide
  have e4 : (" no es una lista. Devolviendo lista vacía." : String).length = 42 := by
    decide
  rw [e1, e2, e3, e4] at hlen
  omega

theorem degraded_load_diagnostics_witness :
    load_tasks "tasks.json" .invalid = .ok ([], [msgCorrupt "tasks.json"]) :=
  (degraded_load_diagnostics "tasks.json").1

/-- C9: during load, a later record whose id coerces to the same integer silently
replaces the earlier one, so the loaded store can hold strictly fewer tasks than
the file holds records (shown for the number 2 versus the string "2"). -/
theorem later_duplicate_id_wins :
    (∀ (rs : List Record) (t : Record) (k : Int), coerceId t = some k →
      buildTasks (rs ++ [t]) = setTask (buildTasks rs) k t) ∧
    buildTasks [[("id", JVal.int 2), ("title", JVal.str "first")],
                [("id", JVal.str "2"), ("title", JVal.str "second")]] =
      [(2, [("id", JVal.str "2"), ("title", JVal.str "second")])] ∧
    (buildTasks [[("id", JVal.int 2), ("title", JVal.str "first")],
                 [("id", JVal.str "2"), ("title", JVal.str "second")]]).length <
      ([[("id", JVal.int 2), ("title", JVal.str "first")],
        [("id", JVal.str "2"), ("title", JVal.str "second")]] : List Record).length := by
  refine ⟨?_, by decide, by decide⟩
  intro rs t k hk
  simp only [buildTasks]
  rw [List.foldl_append]
  simp [loadStep, hk]

theorem later_duplicate_id_wins_witness :
    buildTasks [[("id", JVal.int 7)]] =
      setTask (buildTasks []) 7 [("id", JVal.int 7)] :=
  later_duplicate_id_wins.1 [] [("id", JVal.int 7)] 7 (by decide)

/-- C10: `add_task` itself enforces no non-emptiness of the title: for any
whitespace-only title it stores and persists a task whose title is the empty
string. -/
theorem whitespace_title_stored_empty (st : Store) (file : FileContent)
    (now title description : String) (done : Bool)
    (h : ∀ c ∈ title.data, c.isWhitespace = true) :
    add_task st file true now title description done =
      .ok (⟨setTask st.tasks st.next_id (mkTask st.next_id now title description done),
            st.next_id + 1⟩,
        .arr (sortedRecords
          (setTask st.tasks st.next_id (mkTask st.next_id now title description done))),
        [], mkTask st.next_id now title description done) ∧
    getField (mkTask st.next_id now title description done) "title" =
      some (.str "") ∧
    mkTask st.next_id now title description done ∈
      sortedRecords
        (setTask st.tasks st.next_id (mkTask st.next_id now title description done)) := by
  have htitle : pyStrip title = "" := pyStrip_eq_empty_of_whitespace title h
  refine ⟨rfl, ?_, ?_⟩
  · have hg : getField (mkTask st.next_id now title description done) "title" =
        some (.str (pyStrip title)) := rfl
    rw [htitle] at hg
    exact hg
  · have hlook : lookupTask
        (setTask st.tasks st.next_id (mkTask st.next_id now title description done))
        st.next_id = some (mkTask st.next_id now title description done) := by
      simp [lookupTask_setTask]
    have hkey : st.next_id ∈ pySorted (keysOf
        (setTask st.tasks st.next_id (mkTask st.next_id now title description done))) :=
      (mem_pySorted _ _).mpr (mem_keysOf_setTask _ _ _)
    exact List.mem_map.mpr ⟨st.next_id, hkey, by rw [hlook]; rfl⟩

theorem whitespace_title_stored_empty_witness :
    getField (mkTask 1 "T" "   " "d" false) "title" = some (.str "") :=
  (whitespace_title_stored_empty ⟨[], 1⟩ .missing "T" "   " "d" false
    (by decide)).2.1

/-- C6 counterexample: with the export directory present but the CSV file failing
to open, `export_csv` lets the exception escape instead of absorbing it into a
diagnostic (it has no `try/except`). -/
theorem export_csv_raises_cex :
    export_csv ⟨true, false, true⟩ [] "20240101_000000" = .error .osError := rfl

/-- C6 amended: `load_tasks`, `save_tasks`, `load_state`, `persist`, `add_task`,
`edit_task` and `delete_task` never propagate an exception (Storage-Adapter I/O
failures become diagnostics), but `export_csv` propagates I/O failures from
directory creation and from opening/writing the CSV file, and `export_json`
propagates I/O failures from directory creation. -/
theorem io_absorption_boundaries (env : SysEnv) (path : String)
    (old fc : FileContent) (rs : List Record) (st : Store) (m : TaskMap)
    (now title description stamp : String) (done : Bool) (id : Int) :
    exceptOk (load_tasks path fc) = true ∧
    exceptOk (save_tasks env.writeOk path old rs) = true ∧
    exceptOk (load_state fc) = true ∧
    exceptOk (persist env.writeOk old m) = true ∧
    exceptOk (add_task st old env.writeOk now title description done) = true ∧
    exceptOk (edit_task st old env.writeOk now id title description done) = true ∧
    exceptOk (delete_task st old env.writeOk id) = true ∧
    (env.mkdirOk = false →
      export_json env m old stamp = .error .osError ∧
      export_csv env m stamp = .error .osError) ∧
    (env.mkdirOk = true → exceptOk (export_json env m old stamp) = true) ∧
    (env.mkdirOk = true → env.openCsvOk = false →
      export_csv env m stamp = .error .osError) ∧
    (env.mkdirOk = true → env.openCsvOk = true →
      exceptOk (export_csv env m stamp) = true) := by
  obtain ⟨mk, oc, w⟩ := env
  refine ⟨?_, ?_, ?_, ?_, ?_, ?_, ?_, ?_, ?_, ?_, ?_⟩
  · cases fc <;> rfl
  · cases w <;> rfl
  · cases fc <;> rfl
  · cases w <;> rfl
  · cases w <;> rfl
  · simp only [edit_task]
    cases hl : lookupTask st.tasks id with
    | none => rfl
    | some t =>
      cases t with
      | nil => rfl
      | cons p rest =>
        obtain ⟨⟨f, msgs⟩, hp⟩ := persist_isOk w old
          (setTask st.tasks id (editedRecord (p :: rest) now title description done))
        simp [hp, exceptOk]
  · simp only [delete_task]
    cases hl : (lookupTask st.tasks id).isSome
    · simp [exceptOk]
    · obtain ⟨⟨f, msgs⟩, hp⟩ := persist_isOk w old (eraseTask st.tasks id)
      simp [hp, exceptOk]
  · intro h
    subst h
    exact ⟨rfl, rfl⟩
  · intro h
    subst h
    cases w <;> rfl
  · intro h1 h2
    subst h1
    subst h2
    rfl
  · intro h1 h2
    subst h1
    subst h2
    rfl

theorem io_absorption_boundaries_witness :
    export_csv ⟨true, false, true⟩ [] "s" = .error .osError := by
  obtain ⟨-, -, -, -, -, -, -, -, -, h10, -⟩ :=
    io_absorption_boundaries ⟨true, false, true⟩ "p" .missing .missing []
      ⟨[], 1⟩ [] "n" "t" "d" "s" false 1
  exact h10 rfl rfl

/-- Helper: `load_state` always sets the counter to `recalc_next_id` of the loaded
dict. -/
theorem load_state_next_id {fc : FileContent} {st : Store} {msgs : List String}
    (h : load_state fc = .ok (st, msgs)) :
    st.next_id = recalc_next_id st.tasks := by
  cases fc <;>
    (simp only [load_state, load_tasks, Except.ok.injEq, Prod.mk.injEq] at h;
     rw [← h.1])

/-- Record used in the concrete id-reuse scenario. -/
def demoTask (i : Int) (t : String) : Record := mkTask i "T" t "" false

/-- C1: after load the next-id counter is `max existing id + 1` (or 1 when the
store is empty), and ids are never reused once assigned: after two adds (ids 1 and
2) and `delete(1)`, the next add yields id 3, because next-id follows the
historical maximum, not the current count. -/
theorem next_id_max_plus_one_and_never_reused :
    (∀ (fc : FileContent) (st : Store) (msgs : List String),
      load_state fc = .ok (st, msgs) →
        (st.tasks = [] → st.next_id = 1) ∧
        (∀ k ∈ keysOf st.tasks, k < st.next_id) ∧
        (st.tasks ≠ [] → ∃ k ∈ keysOf st.tasks, st.next_id = k + 1)) ∧
    add_task ⟨[], 1⟩ .missing true "T" "a" "" false =
      .ok (⟨[(1, demoTask 1 "a")], 2⟩, .arr [demoTask 1 "a"], [], demoTask 1 "a") ∧
    add_task ⟨[(1, demoTask 1 "a")], 2⟩ (.arr [demoTask 1 "a"]) true "T" "b" "" false =
      .ok (⟨[(1, demoTask 1 "a"), (2, demoTask 2 "b")], 3⟩,
        .arr [demoTask 1 "a", demoTask 2 "b"], [], demoTask 2 "b") ∧
    delete_task ⟨[(1, demoTask 1 "a"), (2, demoTask 2 "b")], 3⟩
        (.arr [demoTask 1 "a", demoTask 2 "b"]) true 1 =
      .ok (true, ⟨[(2, demoTask 2 "b")], 3⟩, .arr [demoTask 2 "b"], []) ∧
    add_task ⟨[(2, demoTask 2 "b")], 3⟩ (.arr [demoTask 2 "b"]) true "T" "c" "" false =
      .ok (⟨[(2, demoTask 2 "b"), (3, demoTask 3 "c")], 4⟩,
        .arr [demoTask 2 "b", demoTask 3 "c"], [], demoTask 3 "c") ∧
    getField (demoTask 3 "c") "id" = some (.int 3) := by
  refine ⟨?_, rfl, rfl, rfl, rfl, rfl⟩
  intro fc st msgs h
  have hni : st.next_id = recalc_next_id st.tasks := load_state_next_id h
  obtain ⟨hA, hB, hC⟩ := recalc_next_id_spec st.tasks
  rw [hni]
  exact ⟨hA, hB, hC⟩

theorem next_id_max_plus_one_and_never_reused_witness :
    (Store.mk [] 1).next_id = 1 :=
  ((next_id_max_plus_one_and_never_reused.1 .missing ⟨[], 1⟩ [] rfl).1) rfl

/-- C5 counterexample: a record loaded from a pre-existing data file carrying only
an id field is kept and persisted with that single field, so a persisted task can
lack the other five fields. -/
theorem load_persists_partial_record_cex :
    load_state (.arr [[("id", JVal.int 1)]]) =
      .ok (⟨[(1, [("id", JVal.int 1)])], 2⟩, []) ∧
    persist true .missing [(1, [("id", JVal.int 1)])] =
      .ok (.arr [[("id", JVal.int 1)]], []) ∧
    getField [("id", JVal.int 1)] "title" = none := by
  exact ⟨rfl, rfl, rfl⟩

/-- C5 amended: every task created by `add_task` has all six fields when
persisted; a task that entered the store via `load_state` is persisted verbatim,
with exactly the fields its on-disk record had, which may be fewer than six. -/
theorem add_six_fields_load_verbatim :
    (∀ (i : Int) (now title description : String) (done : Bool), ∀ f ∈ fieldnames,
      (getField (mkTask i now title description done) f).isSome = true) ∧
    (∀ (raw : List Record) (k : Int) (r : Record),
      lookupTask (buildTasks raw) k = some r → r ∈ raw) := by
  constructor
  · intro i now title description done f hf
    simp only [fieldnames] at hf
    fin_cases hf <;> rfl
  · intro raw k r h
    rcases lookupTask_foldl_loadStep_mem raw [] k r h with h1 | h2
    · exact h1
    · simp [lookupTask] at h2

theorem add_six_fields_load_verbatim_witness :
    (getField (mkTask 1 "T" "t" "d" false) "done").isSome = true :=
  add_six_fields_load_verbatim.1 1 "T" "t" "d" false "done" (by decide)

/-- C4: `edit_task` on an absent id returns false and leaves the store, the file
and the diagnostics untouched (no persist is triggered); on a present id (bound,
as every reachable store has it, to a nonempty record) it overwrites title,
description and done, refreshes `updated_at`, persists the new store and returns
true, touching no other task. -/
theorem edit_contract (st : Store) (file : FileContent) (writeOk : Bool)
    (now : String) (id : Int) (title description : String) (done : Bool) :
    (lookupTask st.tasks id = none →
      edit_task st file writeOk now id title description done =
        .ok (false, st, file, [])) ∧
    (∀ t, lookupTask st.tasks id = some t → t ≠ [] →
      (∀ f msgs,
        persist writeOk file
            (setTask st.tasks id (editedRecord t now title description done)) =
          .ok (f, msgs) →
        edit_task st file writeOk now id title description done =
          .ok (true,
            ⟨setTask st.tasks id (editedRecord t now title description done),
              st.next_id⟩, f, msgs)) ∧
      getField (editedRecord t now title description done) "title" =
        some (.str (pyStrip title)) ∧
      getField (editedRecord t now title description done) "description" =
        some (.str (pyStrip description)) ∧
      getField (editedRecord t now title description done) "done" =
        some (.bool done) ∧
      getField (editedRecord t now title description done) "updated_at" =
        some (.str now) ∧
      lookupTask (setTask st.tasks id (editedRecord t now title description done))
          id = some (editedRecord t now title description done) ∧
      (∀ j, j ≠ id →
        lookupTask (setTask st.tasks id (editedRecord t now title description done))
            j = lookupTask st.tasks j)) := by
  constructor
  · intro h
    simp [edit_task, h]
  · intro t ht hne
    have hte : t.isEmpty = false := by
      cases t
      · exact absurd rfl hne
      · rfl
    refine ⟨?_, ?_, ?_, ?_, ?_, ?_, ?_⟩
    · intro f msgs hp
      simp [edit_task, ht, hte, hp]
    · simp [editedRecord, getField_setField]
    · simp [editedRecord, getField_setField]
    · simp [editedRecord, getField_setField]
    · simp [editedRecord, getField_setField]
    · simp [lookupTask_setTask]
    · intro j hj
      simp [lookupTask_setTask, Ne.symm hj]

theorem edit_contract_witness :
    getField (editedRecord (mkTask 1 "T" "x" "" false) "T2" "nt" "nd" true)
      "updated_at" = some (.str "T2") :=
  ((edit_contract ⟨[(1, mkTask 1 "T" "x" "" false)], 2⟩ .missing true "T2" 1
      "nt" "nd" true).2 (mkTask 1 "T" "x" "" false) rfl
      (by decide)).2.2.2.2.1

/-- C8: `export_csv` (when the directory and the file I/O succeed) writes the
fixed header `id,date,title,description,done,updated_at`, exactly one row per
task in ascending id order, each cell rendering the in-memory value of that
field, with missing fields rendered as empty strings. -/
theorem export_csv_rows_contract (m : TaskMap) (stamp : String) :
    export_csv ⟨true, true, true⟩ m stamp =
      .ok (EXPORT_DIR ++ "/tasks_" ++ stamp ++ ".csv", csvContent m) ∧
    csvContent m = fieldnames :: csvRows m ∧
    (csvRows m).length = m.length ∧
    (∃ ks : List Int, ks.Perm (keysOf m) ∧ ks.Sorted (fun a b => a ≤ b) ∧
      csvRows m = ks.map
        (fun tid => fieldnames.map (csvCell ((lookupTask m tid).getD [])))) ∧
    (∀ k r, lookupTask m k = some r → fieldnames.map (csvCell r) ∈ csvRows m) ∧
    (∀ r f v, getField r f = some v → csvCell r f = pyStr v) ∧
    (∀ r f, getField r f = none → csvCell r f = "") := by
  refine ⟨rfl, rfl, ?_, ?_, ?_, ?_, ?_⟩
  · simp [csvRows, length_pySorted, keysOf]
  · exact ⟨pySorted (keysOf m), pySorted_perm _, pySorted_sorted _, rfl⟩
  · intro k r h
    have hk : k ∈ keysOf m := by
      by_contra hk
      have hnone := (lookupTask_eq_none_iff m k).mpr hk
      rw [h] at hnone
      exact Option.noConfusion hnone
    exact List.mem_map.mpr ⟨k, (mem_pySorted _ _).mpr hk, by simp [h]⟩
  · intro r f v h
    simp [csvCell, h]
  · intro r f h
    simp [csvCell, h]

theorem export_csv_rows_contract_witness :
    fieldnames.map (csvCell (mkTask 1 "T" "a" "d" true)) ∈
      csvRows [(2, [("id", JVal.int 2)]), (1, mkTask 1 "T" "a" "d" true)] :=
  (export_csv_rows_contract
      [(2, [("id", JVal.int 2)]), (1, mkTask 1 "T" "a" "d" true)] "s").2.2.2.2.1
    1 (mkTask 1 "T" "a" "d" true) rfl

/-- C3: for every well-formed store (each record's id field coerces back to its
key, keys distinct, as every reachable store satisfies), `persist` followed by
`load_state` reproduces an equivalent set of tasks: the same ids map to the same
field values, regardless of the order in which the bindings sit in memory. -/
theorem persist_load_roundtrip (m : TaskMap) (file : FileContent)
    (H1 : ∀ p ∈ m, coerceId p.2 = some p.1)
    (H2 : (keysOf m).Nodup) :
    persist true file m = .ok (.arr (sortedRecords m), []) ∧
    load_state (.arr (sortedRecords m)) =
      .ok (⟨buildTasks (sortedRecords m),
        recalc_next_id (buildTasks (sortedRecords m))⟩, []) ∧
    ∀ k, lookupTask (buildTasks (sortedRecords m)) k = lookupTask m k := by
  refine ⟨rfl, rfl, ?_⟩
  intro k
  have hnd : (keysOf (sortedPairs m)).Nodup := by
    rw [sortedPairs, keysOf_map_pair]
    exact (pySorted_perm (keysOf m)).symm.nodup H2
  have hco : ∀ p ∈ sortedPairs m, coerceId p.2 = some p.1 := by
    intro p hp
    rw [sortedPairs] at hp
    obtain ⟨k', hk', rfl⟩ := List.mem_map.mp hp
    have hkm : k' ∈ keysOf m := (mem_pySorted _ _).mp hk'
    obtain ⟨r, hr⟩ := lookupTask_isSome_of_mem_keys hkm
    have hmem : (k', r) ∈ m := mem_of_lookupTask_eq_some hr
    simpa [hr] using H1 (k', r) hmem
  have hbuild : buildTasks (sortedRecords m) =
      List.foldl loadStep [] ((sortedPairs m).map Prod.snd) := by
    rw [sortedRecords_eq_map_snd]
    rfl
  rw [hbuild, lookupTask_foldl_loadStep (sortedPairs m) [] hnd hco k]
  simp only [sortedPairs, keysOf_map_pair, lookupTask_map_pair]
  by_cases hk : k ∈ keysOf m
  · have hks : k ∈ pySorted (keysOf m) := (mem_pySorted _ _).mpr hk
    rw [if_pos hks, if_pos hks]
    obtain ⟨r, hr⟩ := lookupTask_isSome_of_mem_keys hk
    rw [hr]
    rfl
  · have hks : k ∉ pySorted (keysOf m) := fun hh => hk ((mem_pySorted _ _).mp hh)
    rw [if_neg hks, (lookupTask_eq_none_iff m k).mpr hk]
    rfl

theorem persist_load_roundtrip_witness :
    lookupTask (buildTasks (sortedRecords
        [(2, mkTask 2 "T" "b" "" false), (1, mkTask 1 "T" "a" "" true)])) 1 =
      lookupTask [(2, mkTask 2 "T" "b" "" false), (1, mkTask 1 "T" "a" "" true)] 1 :=
  (persist_load_roundtrip
      [(2, mkTask 2 "T" "b" "" false), (1, mkTask 1 "T" "a" "" true)]
      .missing (by decide) (by decide)).2.2 1

end Tareas
